import Mathlib

/-!
Verification of the falling-sand cellular automaton (bddap/cell-aut).

The matter encoding is embedded directly from `src/matter.rs`.  The simulator
(`ca_simulator.rs` and `utils.rs` are not among the available sources) is
modelled from the specification: grid store, rule engine, step orchestrator,
paint and query operators, per spec sections 4.2-4.6.  Rust `u8`/`u32` values
are embedded as `Nat` with explicit `% 256` where the low byte matters, `f32`
color arithmetic as exact rationals, and the random sources (color jitter,
left/right tie-break) as explicit injected parameters, per spec section 9.
-/

set_option maxHeartbeats 1000000
set_option maxRecDepth 4000

/-- `MatterId` from matter.rs: `Empty = 0, Sand = 1, Wood = 2` (`repr(u8)`). -/
inductive MatterId where
  | Empty
  | Sand
  | Wood
  deriving DecidableEq

/-- The `repr(u8)` ordinal of a `MatterId` (`matter_id as u8` in the source). -/
def MatterId.toByte : MatterId → ℕ
  | .Empty => 0
  | .Sand => 1
  | .Wood => 2

/-- `impl From<u8> for MatterId` in matter.rs is
`unsafe { std::mem::transmute(item) }`: bytes 0, 1, 2 map to the corresponding
variant; any other byte is undefined behavior, modelled as `none`. -/
def MatterId.fromByte : ℕ → Option MatterId
  | 0 => some .Empty
  | 1 => some .Sand
  | 2 => some .Wood
  | _ => none

/-- `EMPTY_COLOR` from main.rs. -/
def EMPTY_COLOR : ℕ := 0x0

/-- Modelled from the spec: `u8_rgba_to_u32_rgba` lives in the repository's
`utils.rs`, which is not among the available sources.  Per the spec's data
model (and the doc comment on `MatterWithColor`), the three high bytes hold
the color channels and the low byte holds the matter identifier. -/
def u8_rgba_to_u32_rgba (r g b a : ℕ) : ℕ :=
  r * 2 ^ 24 + g * 2 ^ 16 + b * 2 ^ 8 + a

/-- Modelled from the spec: `u32_rgba_to_u8_rgba` from the missing `utils.rs`,
the byte-wise inverse of `u8_rgba_to_u32_rgba`. -/
def u32_rgba_to_u8_rgba (c : ℕ) : ℕ × ℕ × ℕ × ℕ :=
  (c / 2 ^ 24 % 256, c / 2 ^ 16 % 256, c / 2 ^ 8 % 256, c % 256)

/-- `MatterId::color_rgba_u8` from matter.rs. -/
def MatterId.color_rgba_u8 (m : MatterId) : ℕ × ℕ × ℕ × ℕ :=
  u32_rgba_to_u8_rgba (match m with
    | .Empty => EMPTY_COLOR
    | .Sand => 0xc2b280ff
    | .Wood => 0xba8c63ff)

/-- `MatterId::color_rgba_f32` from matter.rs, with `f32` embedded as `ℚ`. -/
def MatterId.color_rgba_f32 (m : MatterId) : ℚ × ℚ × ℚ × ℚ :=
  let rgba := m.color_rgba_u8
  (rgba.1 / 255, rgba.2.1 / 255, rgba.2.2.1 / 255, rgba.2.2.2 / 255)

/-- Rust `x.clamp(0.0, 1.0)` on a rational. -/
def clamp01 (x : ℚ) : ℚ := min (max x 0) 1

/-- `((x).clamp(0.0, 1.0) * 255.0) as u8` from matter.rs: the cast truncates
the (nonnegative, ≤ 255) value toward zero. -/
def chanByte (x : ℚ) : ℕ := (⌊clamp01 x * 255⌋).toNat

/-- `MatterId::gen_variate_color_rgba_u8` from matter.rs.  The single call to
`rand::random::<f32>()` is embedded as the explicit parameter `p`; note the
one sampled `variation` is added to all three channels. -/
def MatterId.gen_variate_color_rgba_u8 (m : MatterId) (p : ℚ) : ℕ × ℕ × ℕ × ℕ :=
  let color := m.color_rgba_f32
  let variation := -(1 / 10) + (1 / 5) * p
  (chanByte (color.1 + variation), chanByte (color.2.1 + variation),
    chanByte (color.2.2.1 + variation), 255)

/-- `MatterWithColor` from matter.rs: a packed `u32` cell value. -/
structure MatterWithColor where
  value : ℕ

/-- `MatterWithColor::new` from matter.rs; the random draw inside
`gen_variate_color_rgba_u8` is passed in as `p`. -/
def MatterWithColor.new (matter_id : MatterId) (p : ℚ) : MatterWithColor :=
  let color :=
    if matter_id ≠ MatterId.Empty then matter_id.gen_variate_color_rgba_u8 p
    else matter_id.color_rgba_u8
  ⟨u8_rgba_to_u32_rgba color.1 color.2.1 color.2.2.1 matter_id.toByte⟩

/-- `MatterWithColor::matter_id` from matter.rs: `((self.value & 255) as u8).into()`.
The `From<u8>` transmute is total only on bytes 0..2 (see `MatterId.fromByte`). -/
def MatterWithColor.matter_id (m : MatterWithColor) : Option MatterId :=
  MatterId.fromByte (m.value % 256)

/-! ## The simulator, modelled from the spec -/

/-- A grid buffer: packed cell values addressed by (column, row).  Only the
entries with both coordinates in bounds are ever observable. -/
abbrev Grid := ℕ × ℕ → ℕ

/-- Modelled from the spec: the bounds predicate of the W×H grid store
(`ca_simulator.rs` is not among the available sources). -/
def inB (W H : ℕ) (x y : ℤ) : Prop :=
  0 ≤ x ∧ x < (W : ℤ) ∧ 0 ≤ y ∧ y < (H : ℤ)

instance (W H : ℕ) (x y : ℤ) : Decidable (inB W H x y) := by
  unfold inB; infer_instance

/-- Modelled from the spec: bounds-checked grid read; out-of-bounds reads
return the Empty cell (spec 4.2). -/
def getCell (W H : ℕ) (g : Grid) (x y : ℤ) : ℕ :=
  if inB W H x y then g (x.toNat, y.toNat) else 0

/-- Modelled from the spec: bounds-checked grid write; out-of-bounds writes
are silently ignored (spec 4.2). -/
def setCell (W H : ℕ) (g : Grid) (x y : ℤ) (c : ℕ) : Grid :=
  if inB W H x y then Function.update g (x.toNat, y.toNat) c else g

/-- Modelled from the spec: a rule-engine candidate target is accepted only if
it lies in the grid and holds Empty in the current buffer (spec 4.3; the
conservation guarantee of spec 4.4 forbids matter from leaving the grid). -/
def freeAt (W H : ℕ) (g : Grid) (x y : ℤ) : Prop :=
  inB W H x y ∧ getCell W H g x y % 256 = 0

instance (W H : ℕ) (g : Grid) (x y : ℤ) : Decidable (freeAt W H g x y) := by
  unfold freeAt; infer_instance

/-- Modelled from the spec: evaluate and commit the rule engine's decision for
the cell at (x, y) (spec 4.3).  Empty and Wood never move; Sand tries straight
down, then down-left, then down-right, with the injected random choice `coin`
breaking the tie when both diagonals are free; if no candidate is free the
cell stays.  "Down" is decreasing y, matching the repository's sandfall test. -/
def stepCell (W H : ℕ) (coin : ℤ × ℤ → Bool) (g : Grid) (x y : ℤ) : Grid :=
  if getCell W H g x y % 256 = 1 then
    if freeAt W H g x (y - 1) then
      setCell W H (setCell W H g x y 0) x (y - 1) (getCell W H g x y)
    else if freeAt W H g (x - 1) (y - 1) ∧ freeAt W H g (x + 1) (y - 1) then
      if coin (x, y) then
        setCell W H (setCell W H g x y 0) (x - 1) (y - 1) (getCell W H g x y)
      else
        setCell W H (setCell W H g x y 0) (x + 1) (y - 1) (getCell W H g x y)
    else if freeAt W H g (x - 1) (y - 1) then
      setCell W H (setCell W H g x y 0) (x - 1) (y - 1) (getCell W H g x y)
    else if freeAt W H g (x + 1) (y - 1) then
      setCell W H (setCell W H g x y 0) (x + 1) (y - 1) (getCell W H g x y)
    else g
  else g

/-- Modelled from the spec: process cells x = 0, …, n-1 of row y in order,
each as its own conflict-free phase (spec 4.4 / design note on reproducing the
phase discipline with a sequential sweep). -/
def sweepRowAux (W H : ℕ) (coin : ℤ × ℤ → Bool) (y : ℕ) : ℕ → Grid → Grid
  | 0, g => g
  | n + 1, g => stepCell W H coin (sweepRowAux W H coin y n g) (n : ℤ) (y : ℤ)

/-- Modelled from the spec: process rows y = 0, …, n-1 bottom-up, so a grain
moves at most one row per sub-step. -/
def sweepGridAux (W H : ℕ) (coin : ℤ × ℤ → Bool) : ℕ → Grid → Grid
  | 0, g => g
  | n + 1, g => sweepRowAux W H coin n W (sweepGridAux W H coin n g)

/-- Modelled from the spec: one full sub-step pass over the grid (spec 4.4). -/
def passOnce (W H : ℕ) (coin : ℤ × ℤ → Bool) (g : Grid) : Grid :=
  sweepGridAux W H coin H g

/-- Modelled from the spec: `subSteps` sequential sub-step passes, each with
its own injected tie-break source. -/
def runPasses (W H : ℕ) (coins : ℕ → ℤ × ℤ → Bool) : ℕ → Grid → Grid
  | 0, g => g
  | n + 1, g => passOnce W H (coins n) (runPasses W H coins n g)

/-- Modelled from the spec: the simulator state — grid dimensions fixed at
construction plus the current buffer (spec 3, 6). -/
structure CaSimulator where
  width : ℕ
  height : ℕ
  grid : Grid

/-- Modelled from the spec: construction fully initializes the grid to Empty
(spec 4.2); the repository instantiates it at 1024×1024 (`CANVAS_SIZE` in
main.rs). -/
def CaSimulator.new (w h : ℕ) : CaSimulator := ⟨w, h, fun _ => 0⟩

/-- Modelled from the spec: `step(sub_steps, paused)`; a no-op when paused,
otherwise `subSteps` sequential passes (spec 4.4). -/
def CaSimulator.step (sim : CaSimulator) (subSteps : ℕ) (paused : Bool)
    (coins : ℕ → ℤ × ℤ → Bool) : CaSimulator :=
  if paused then sim
  else { sim with grid := runPasses sim.width sim.height coins subSteps sim.grid }

/-- Modelled from the spec: `query_matter(position)` — the decoded kind at an
in-grid position, `none` outside the grid (spec 4.6). -/
def CaSimulator.query_matter (sim : CaSimulator) (p : ℤ × ℤ) : Option MatterId :=
  if inB sim.width sim.height p.1 p.2 then
    MatterId.fromByte (sim.grid (p.1.toNat, p.2.toNat) % 256)
  else none

/-- Modelled from the spec: `draw_matter(points, radius, kind)` fills the
discrete disk of the given radius around every stroke point with a freshly
constructed cell, through the bounds-checked store (spec 4.5).  The per-cell
color draw is the injected `rand`. -/
def CaSimulator.draw_matter (sim : CaSimulator) (points : List (ℤ × ℤ))
    (radius : ℚ) (kind : MatterId) (rand : ℕ × ℕ → ℚ) : CaSimulator :=
  { sim with grid := fun q =>
      if q.1 < sim.width ∧ q.2 < sim.height ∧
          ∃ pt ∈ points,
            ((q.1 : ℚ) - (pt.1 : ℚ)) ^ 2 + ((q.2 : ℚ) - (pt.2 : ℚ)) ^ 2 ≤ radius ^ 2
      then (MatterWithColor.new kind (rand q)).value
      else sim.grid q }

/-- The number of in-bounds cells of a buffer whose low byte is `k`. -/
def matterCountAux (W H : ℕ) (g : Grid) (k : ℕ) : ℕ :=
  ∑ p ∈ Finset.range W ×ˢ Finset.range H, if g p % 256 = k then 1 else 0

/-- The total count of cells of kind `m` over the whole grid. -/
def CaSimulator.matterCount (sim : CaSimulator) (m : MatterId) : ℕ :=
  matterCountAux sim.width sim.height sim.grid m.toByte

/-! ## Basic lemmas about the matter encoding -/

/-- The low byte of a packed cell is its matter-identifier byte. -/
lemma pack_mod_256 (r g b a : ℕ) : u8_rgba_to_u32_rgba r g b a % 256 = a % 256 := by
  unfold u8_rgba_to_u32_rgba
  omega

/-- The ordinal byte of every `MatterId` is below 256. -/
lemma toByte_lt (k : MatterId) : k.toByte < 256 := by
  cases k <;> simp [MatterId.toByte]

/-- Decoding the ordinal byte recovers the `MatterId`. -/
lemma fromByte_toByte (k : MatterId) : MatterId.fromByte k.toByte = some k := by
  cases k <;> rfl

/-- A freshly constructed cell's low byte is the ordinal of its kind,
whatever the random color draw was. -/
lemma new_value_mod (k : MatterId) (p : ℚ) :
    (MatterWithColor.new k p).value % 256 = k.toByte := by
  cases k <;>
    simp [MatterWithColor.new, pack_mod_256, Nat.mod_eq_of_lt (toByte_lt _)]

/-- `MatterId.fromByte` returns `Wood` exactly on byte 2. -/
lemma fromByte_eq_wood {b : ℕ} :
    MatterId.fromByte b = some MatterId.Wood ↔ b = 2 := by
  match b with
  | 0 => simp [MatterId.fromByte]
  | 1 => simp [MatterId.fromByte]
  | 2 => simp [MatterId.fromByte]
  | (n + 3) =>
      constructor
      · intro h; exact absurd h (by simp [MatterId.fromByte])
      · omega

/-! ## Basic lemmas about the grid store -/

lemma getCell_pos {W H : ℕ} {x y : ℤ} (g : Grid) (h : inB W H x y) :
    getCell W H g x y = g (x.toNat, y.toNat) := if_pos h

lemma getCell_neg {W H : ℕ} {x y : ℤ} (g : Grid) (h : ¬ inB W H x y) :
    getCell W H g x y = 0 := if_neg h

lemma setCell_pos {W H : ℕ} {x y : ℤ} (g : Grid) (c : ℕ) (h : inB W H x y) :
    setCell W H g x y c = Function.update g (x.toNat, y.toNat) c := if_pos h

/-- Two pairs of naturals differing in a component are different. -/
lemma pair_ne {a b c d : ℕ} (h : a ≠ c ∨ b ≠ d) : (a, b) ≠ (c, d) := by
  intro hq
  rw [Prod.mk.injEq] at hq
  rcases h with h | h
  · exact h hq.1
  · exact h hq.2

/-! ## Claims about the matter encoding -/

/-- C4: the byte decode in `From<u8> for MatterId` is an unchecked transmute;
at byte 3 (which no `MatterId` ordinal occupies) it is undefined behavior
(`none` in this embedding) instead of saturating to `Empty` as the spec
requires. -/
theorem from_u8_undefined_byte :
    MatterWithColor.matter_id ⟨3⟩ = none ∧ MatterId.fromByte 3 = none :=
  ⟨rfl, rfl⟩

/-- C5: for every kind, decoding the cell constructed from it returns that
kind, regardless of the random color draw used during construction. -/
theorem new_matter_id_roundtrip (k : MatterId) (p : ℚ) :
    (MatterWithColor.new k p).matter_id = some k := by
  unfold MatterWithColor.matter_id
  rw [new_value_mod, fromByte_toByte]

/-- C10: the decoded kind of a packed cell depends only on its low 8 bits,
and the all-zero default cell decodes to `Empty`. -/
theorem matter_id_low_byte (v w : ℕ) (hv : v < 2 ^ 32) (hw : w < 2 ^ 32)
    (h : v % 256 = w % 256) :
    MatterWithColor.matter_id ⟨v⟩ = MatterWithColor.matter_id ⟨w⟩ ∧
      MatterWithColor.matter_id ⟨0⟩ = some MatterId.Empty := by
  constructor
  · unfold MatterWithColor.matter_id
    rw [h]
  · rfl

/-- Witness for C10 at v = 257, w = 1. -/
theorem matter_id_low_byte_witness :
    257 < 2 ^ 32 ∧ 1 < 2 ^ 32 ∧ 257 % 256 = 1 % 256 ∧
      (MatterWithColor.matter_id ⟨257⟩ = MatterWithColor.matter_id ⟨1⟩ ∧
        MatterWithColor.matter_id ⟨0⟩ = some MatterId.Empty) :=
  ⟨by decide, by decide, by decide, matter_id_low_byte 257 1 (by decide) (by decide) (by decide)⟩

/-! ## Claims about step framing and the query operator -/

/-- C7: a paused step, and a step with zero sub-steps, change nothing. -/
theorem step_paused_or_zero_noop (sim : CaSimulator) (n : ℕ) (b : Bool)
    (coins coins2 : ℕ → ℤ × ℤ → Bool) :
    sim.step n true coins = sim ∧ sim.step 0 b coins2 = sim := by
  constructor
  · rfl
  · cases b <;> rfl

/-- C8: `query_matter` returns `none` at every out-of-grid position, and the
decoded kind of the stored cell at every in-grid position; it is a pure read
of the current buffer. -/
theorem query_matter_spec (sim : CaSimulator) (p : ℤ × ℤ) :
    (¬ inB sim.width sim.height p.1 p.2 → sim.query_matter p = none) ∧
    (inB sim.width sim.height p.1 p.2 →
      sim.query_matter p = MatterId.fromByte (sim.grid (p.1.toNat, p.2.toNat) % 256)) := by
  constructor
  · intro h
    exact if_neg h
  · intro h
    exact if_pos h

/-- Witness for C8: out of bounds at (-1, 0) and in bounds at (0, 0) on a
fresh 4×4 simulator. -/
theorem query_matter_spec_witness :
    (¬ inB (CaSimulator.new 4 4).width (CaSimulator.new 4 4).height (-1) 0 ∧
      (CaSimulator.new 4 4).query_matter (-1, 0) = none) ∧
    (inB (CaSimulator.new 4 4).width (CaSimulator.new 4 4).height 0 0 ∧
      (CaSimulator.new 4 4).query_matter (0, 0) =
        MatterId.fromByte ((CaSimulator.new 4 4).grid (0, 0) % 256)) :=
  ⟨⟨by decide, (query_matter_spec (CaSimulator.new 4 4) (-1, 0)).1 (by decide)⟩,
   ⟨by decide, (query_matter_spec (CaSimulator.new 4 4) (0, 0)).2 (by decide)⟩⟩

/-! ## Structure of a single cell update -/

/-- A committed move writes Empty at the source and the moved cell at the
target, expressed as two function updates. -/
lemma move_shape (W H : ℕ) (g : Grid) (x y tx ty : ℤ)
    (hin : inB W H x y) (hb : g (x.toNat, y.toNat) % 256 = 1)
    (ht : freeAt W H g tx ty) (hty : ty = y - 1) :
    ∃ s t : ℕ × ℕ, s.1 < W ∧ s.2 < H ∧ t.1 < W ∧ t.2 < H ∧ s ≠ t ∧
      g s % 256 = 1 ∧ g t % 256 = 0 ∧
      setCell W H (setCell W H g x y 0) tx ty (getCell W H g x y) =
        Function.update (Function.update g s 0) t (g s) := by
  have htb : g (tx.toNat, ty.toNat) % 256 = 0 := by
    have := ht.2
    rw [getCell_pos g ht.1] at this
    exact this
  obtain ⟨hx0, hxW, hy0, hyH⟩ := hin
  obtain ⟨htx0, htxW, hty0, htyH⟩ := ht.1
  refine ⟨(x.toNat, y.toNat), (tx.toNat, ty.toNat), by omega, by omega, by omega, by omega,
    ?_, hb, htb, ?_⟩
  · apply pair_ne
    right
    omega
  · rw [getCell_pos g ⟨hx0, hxW, hy0, hyH⟩,
      setCell_pos g 0 ⟨hx0, hxW, hy0, hyH⟩,
      setCell_pos _ _ ⟨htx0, htxW, hty0, htyH⟩]

/-- Every single-cell update is either a no-op or a commit of one move: Empty
written at an in-bounds sand source, the sand value written at a distinct
in-bounds target that held Empty. -/
lemma stepCell_cases (W H : ℕ) (coin : ℤ × ℤ → Bool) (g : Grid) (x y : ℤ) :
    stepCell W H coin g x y = g ∨
    ∃ s t : ℕ × ℕ, s.1 < W ∧ s.2 < H ∧ t.1 < W ∧ t.2 < H ∧ s ≠ t ∧
      g s % 256 = 1 ∧ g t % 256 = 0 ∧
      stepCell W H coin g x y =
        Function.update (Function.update g s 0) t (g s) := by
  by_cases hb : getCell W H g x y % 256 = 1
  · have hin : inB W H x y := by
      by_contra hni
      rw [getCell_neg g hni] at hb
      simp at hb
    have hb2 : g (x.toNat, y.toNat) % 256 = 1 := by
      rw [← getCell_pos g hin]
      exact hb
    unfold stepCell
    rw [if_pos hb]
    by_cases hd : freeAt W H g x (y - 1)
    · rw [if_pos hd]
      exact Or.inr (move_shape W H g x y x (y - 1) hin hb2 hd rfl)
    · rw [if_neg hd]
      by_cases hlr : freeAt W H g (x - 1) (y - 1) ∧ freeAt W H g (x + 1) (y - 1)
      · rw [if_pos hlr]
        cases hcoin : coin (x, y)
        · rw [if_neg (by simp [hcoin])]
          exact Or.inr (move_shape W H g x y (x + 1) (y - 1) hin hb2 hlr.2 rfl)
        · rw [if_pos (by simp [hcoin])]
          exact Or.inr (move_shape W H g x y (x - 1) (y - 1) hin hb2 hlr.1 rfl)
      · rw [if_neg hlr]
        by_cases hl : freeAt W H g (x - 1) (y - 1)
        · rw [if_pos hl]
          exact Or.inr (move_shape W H g x y (x - 1) (y - 1) hin hb2 hl rfl)
        · rw [if_neg hl]
          by_cases hr : freeAt W H g (x + 1) (y - 1)
          · rw [if_pos hr]
            exact Or.inr (move_shape W H g x y (x + 1) (y - 1) hin hb2 hr rfl)
          · rw [if_neg hr]
            exact Or.inl rfl
  · left
    unfold stepCell
    rw [if_neg hb]

/-! ## Conservation of matter counts -/

/-- Updating one in-bounds cell exchanges its contribution to the count. -/
lemma countAux_update (W H : ℕ) (g : Grid) (p : ℕ × ℕ) (v k : ℕ)
    (h1 : p.1 < W) (h2 : p.2 < H) :
    matterCountAux W H (Function.update g p v) k + (if g p % 256 = k then 1 else 0)
      = matterCountAux W H g k + (if v % 256 = k then 1 else 0) := by
  have hp : p ∈ Finset.range W ×ˢ Finset.range H := by
    rw [Finset.mem_product]
    exact ⟨Finset.mem_range.mpr h1, Finset.mem_range.mpr h2⟩
  unfold matterCountAux
  rw [← Finset.add_sum_erase _ (fun q => if Function.update g p v q % 256 = k then 1 else 0) hp,
    ← Finset.add_sum_erase _ (fun q => if g q % 256 = k then 1 else 0) hp]
  have hcong :
      ∑ q ∈ (Finset.range W ×ˢ Finset.range H).erase p,
          (if Function.update g p v q % 256 = k then 1 else 0)
        = ∑ q ∈ (Finset.range W ×ˢ Finset.range H).erase p,
            (if g q % 256 = k then 1 else 0) := by
    refine Finset.sum_congr rfl fun q hq => ?_
    rw [Function.update_noteq (Finset.ne_of_mem_erase hq)]
  rw [hcong, Function.update_same]
  omega

/-- A committed move (source emptied, target filled with the source value)
preserves every matter count. -/
lemma countAux_move (W H : ℕ) (g : Grid) (s t : ℕ × ℕ) (k : ℕ)
    (hs1 : s.1 < W) (hs2 : s.2 < H) (ht1 : t.1 < W) (ht2 : t.2 < H)
    (hst : s ≠ t) (hbt : g t % 256 = 0) :
    matterCountAux W H (Function.update (Function.update g s 0) t (g s)) k
      = matterCountAux W H g k := by
  have E1 := countAux_update W H (Function.update g s 0) t (g s) k ht1 ht2
  have E2 := countAux_update W H g s 0 k hs1 hs2
  rw [Function.update_noteq (Ne.symm hst)] at E1
  rw [hbt] at E1
  simp only [Nat.zero_mod] at E2
  omega

/-- A single cell update preserves every matter count. -/
lemma stepCell_countAux (W H : ℕ) (coin : ℤ × ℤ → Bool) (g : Grid) (x y : ℤ) (k : ℕ) :
    matterCountAux W H (stepCell W H coin g x y) k = matterCountAux W H g k := by
  rcases stepCell_cases W H coin g x y with h | ⟨s, t, h1, h2, h3, h4, h5, _, h7, heq⟩
  · rw [h]
  · rw [heq]
    exact countAux_move W H g s t k h1 h2 h3 h4 h5 h7

lemma sweepRowAux_countAux (W H : ℕ) (coin : ℤ × ℤ → Bool) (y k : ℕ) :
    ∀ (n : ℕ) (g : Grid),
      matterCountAux W H (sweepRowAux W H coin y n g) k = matterCountAux W H g k := by
  intro n
  induction n with
  | zero => intro g; rfl
  | succ m ih =>
      intro g
      show matterCountAux W H
        (stepCell W H coin (sweepRowAux W H coin y m g) (m : ℤ) (y : ℤ)) k = _
      rw [stepCell_countAux, ih g]

lemma sweepGridAux_countAux (W H : ℕ) (coin : ℤ × ℤ → Bool) (k : ℕ) :
    ∀ (n : ℕ) (g : Grid),
      matterCountAux W H (sweepGridAux W H coin n g) k = matterCountAux W H g k := by
  intro n
  induction n with
  | zero => intro g; rfl
  | succ m ih =>
      intro g
      show matterCountAux W H
        (sweepRowAux W H coin m W (sweepGridAux W H coin m g)) k = _
      rw [sweepRowAux_countAux, ih g]

lemma runPasses_countAux (W H : ℕ) (coins : ℕ → ℤ × ℤ → Bool) (k : ℕ) :
    ∀ (n : ℕ) (g : Grid),
      matterCountAux W H (runPasses W H coins n g) k = matterCountAux W H g k := by
  intro n
  induction n with
  | zero => intro g; rfl
  | succ m ih =>
      intro g
      show matterCountAux W H (passOnce W H (coins m) (runPasses W H coins m g)) k = _
      unfold passOnce
      rw [sweepGridAux_countAux, ih g]

/-- C1: a step call never creates or destroys non-Empty matter — for every
simulator state (in particular every state reached by any sequence of step
and draw_matter calls), every sub-step count and any pause flag, the total
count of each non-Empty kind over the whole grid is the same after the step
call as before it. -/
theorem step_conserves_matter (sim : CaSimulator) (subSteps : ℕ) (paused : Bool)
    (coins : ℕ → ℤ × ℤ → Bool) (k : MatterId) (hk : k ≠ MatterId.Empty) :
    (sim.step subSteps paused coins).matterCount k = sim.matterCount k := by
  unfold CaSimulator.step
  cases paused
  · rw [if_neg (by simp)]
    unfold CaSimulator.matterCount
    exact runPasses_countAux sim.width sim.height coins k.toByte subSteps sim.grid
  · rw [if_pos rfl]

/-- Witness for C1: Sand is a non-Empty kind and its count survives a 2-pass
step on a fresh 4×4 simulator. -/
theorem step_conserves_matter_witness :
    MatterId.Sand ≠ MatterId.Empty ∧
      ((CaSimulator.new 4 4).step 2 false (fun _ _ => true)).matterCount MatterId.Sand
        = (CaSimulator.new 4 4).matterCount MatterId.Sand :=
  ⟨by decide,
   step_conserves_matter (CaSimulator.new 4 4) 2 false (fun _ _ => true)
     MatterId.Sand (by decide)⟩

/-! ## Immovable matter -/

/-- A cell that is neither Empty nor Sand is never written by a cell update:
the only writes are Empty at a sand source and a sand value at an Empty
target. -/
lemma stepCell_apply_of_byte (W H : ℕ) (coin : ℤ × ℤ → Bool) (g : Grid)
    (x y : ℤ) (p : ℕ × ℕ) (h0 : g p % 256 ≠ 0) (h1 : g p % 256 ≠ 1) :
    stepCell W H coin g x y p = g p := by
  rcases stepCell_cases W H coin g x y with h | ⟨s, t, _, _, _, _, _, h6, h7, heq⟩
  · rw [h]
  · rw [heq]
    have hps : p ≠ s := fun he => h1 (he ▸ h6)
    have hpt : p ≠ t := fun he => h0 (he ▸ h7)
    rw [Function.update_noteq hpt, Function.update_noteq hps]

lemma sweepRowAux_apply_of_byte (W H : ℕ) (coin : ℤ × ℤ → Bool) (y : ℕ)
    (p : ℕ × ℕ) :
    ∀ (n : ℕ) (g : Grid), g p % 256 ≠ 0 → g p % 256 ≠ 1 →
      sweepRowAux W H coin y n g p = g p := by
  intro n
  induction n with
  | zero => intro g _ _; rfl
  | succ m ih =>
      intro g h0 h1
      have hm := ih g h0 h1
      show stepCell W H coin (sweepRowAux W H coin y m g) (m : ℤ) (y : ℤ) p = g p
      rw [stepCell_apply_of_byte W H coin _ _ _ p (by rw [hm]; exact h0) (by rw [hm]; exact h1)]
      exact hm

lemma sweepGridAux_apply_of_byte (W H : ℕ) (coin : ℤ × ℤ → Bool) (p : ℕ × ℕ) :
    ∀ (n : ℕ) (g : Grid), g p % 256 ≠ 0 → g p % 256 ≠ 1 →
      sweepGridAux W H coin n g p = g p := by
  intro n
  induction n with
  | zero => intro g _ _; rfl
  | succ m ih =>
      intro g h0 h1
      have hm := ih g h0 h1
      show sweepRowAux W H coin m W (sweepGridAux W H coin m g) p = g p
      rw [sweepRowAux_apply_of_byte W H coin m p W _ (by rw [hm]; exact h0)
        (by rw [hm]; exact h1)]
      exact hm

lemma runPasses_apply_of_byte (W H : ℕ) (coins : ℕ → ℤ × ℤ → Bool) (p : ℕ × ℕ) :
    ∀ (n : ℕ) (g : Grid), g p % 256 ≠ 0 → g p % 256 ≠ 1 →
      runPasses W H coins n g p = g p := by
  intro n
  induction n with
  | zero => intro g _ _; rfl
  | succ m ih =>
      intro g h0 h1
      have hm := ih g h0 h1
      show passOnce W H (coins m) (runPasses W H coins m g) p = g p
      unfold passOnce
      rw [sweepGridAux_apply_of_byte W H (coins m) p H _ (by rw [hm]; exact h0)
        (by rw [hm]; exact h1)]
      exact hm

/-- C6: a cell holding Wood still holds Wood at the same position after a step
call with any sub-step count and pause flag, whatever its neighborhood is. -/
theorem wood_immovable (sim : CaSimulator) (subSteps : ℕ) (paused : Bool)
    (coins : ℕ → ℤ × ℤ → Bool) (p : ℤ × ℤ)
    (h : sim.query_matter p = some MatterId.Wood) :
    (sim.step subSteps paused coins).query_matter p = some MatterId.Wood := by
  unfold CaSimulator.query_matter at h
  by_cases hin : inB sim.width sim.height p.1 p.2
  · rw [if_pos hin] at h
    have hbyte : sim.grid (p.1.toNat, p.2.toNat) % 256 = 2 := fromByte_eq_wood.mp h
    cases paused
    · have hstep : sim.step subSteps false coins =
          { sim with grid := runPasses sim.width sim.height coins subSteps sim.grid } := by
        unfold CaSimulator.step
        rw [if_neg (by simp)]
      rw [hstep]
      unfold CaSimulator.query_matter
      rw [if_pos hin]
      show MatterId.fromByte
        (runPasses sim.width sim.height coins subSteps sim.grid (p.1.toNat, p.2.toNat) % 256)
          = some MatterId.Wood
      rw [runPasses_apply_of_byte sim.width sim.height coins (p.1.toNat, p.2.toNat)
        subSteps sim.grid (by omega) (by omega), hbyte]
      rfl
    · have hstep : sim.step subSteps true coins = sim := rfl
      rw [hstep]
      unfold CaSimulator.query_matter
      rw [if_pos hin, hbyte]
      rfl
  · rw [if_neg hin] at h
    exact absurd h (by simp)

/-- Witness for C6: an 8×8 grid holding a single Wood cell at (5, 5) keeps it
there through a 3-sub-step step call. -/
theorem wood_immovable_witness :
    (CaSimulator.mk 8 8 (fun q => if q = (5, 5) then 2 else 0)).query_matter (5, 5)
        = some MatterId.Wood ∧
      ((CaSimulator.mk 8 8 (fun q => if q = (5, 5) then 2 else 0)).step 3 false
          (fun _ _ => true)).query_matter (5, 5) = some MatterId.Wood :=
  ⟨by decide,
   wood_immovable (CaSimulator.mk 8 8 (fun q => if q = (5, 5) then 2 else 0)) 3 false
     (fun _ _ => true) (5, 5) (by decide)⟩

/-! ## Rule-engine priority for Sand -/

/-- C3: for a cell holding Sand, the committed decision follows the priority
order straight down, then down-left, then down-right, each candidate accepted
only if its target is free (in bounds and Empty) in the current buffer, with
the injected random choice breaking the tie when both diagonals are free; if
no candidate is free the cell stays in place. -/
theorem sand_rule_priority (W H : ℕ) (coin : ℤ × ℤ → Bool) (g : Grid) (x y : ℤ)
    (hsand : getCell W H g x y % 256 = 1) :
    (freeAt W H g x (y - 1) →
      stepCell W H coin g x y =
        setCell W H (setCell W H g x y 0) x (y - 1) (getCell W H g x y)) ∧
    (¬ freeAt W H g x (y - 1) → freeAt W H g (x - 1) (y - 1) →
      freeAt W H g (x + 1) (y - 1) →
      stepCell W H coin g x y =
        if coin (x, y) then
          setCell W H (setCell W H g x y 0) (x - 1) (y - 1) (getCell W H g x y)
        else
          setCell W H (setCell W H g x y 0) (x + 1) (y - 1) (getCell W H g x y)) ∧
    (¬ freeAt W H g x (y - 1) → freeAt W H g (x - 1) (y - 1) →
      ¬ freeAt W H g (x + 1) (y - 1) →
      stepCell W H coin g x y =
        setCell W H (setCell W H g x y 0) (x - 1) (y - 1) (getCell W H g x y)) ∧
    (¬ freeAt W H g x (y - 1) → ¬ freeAt W H g (x - 1) (y - 1) →
      freeAt W H g (x + 1) (y - 1) →
      stepCell W H coin g x y =
        setCell W H (setCell W H g x y 0) (x + 1) (y - 1) (getCell W H g x y)) ∧
    (¬ freeAt W H g x (y - 1) → ¬ freeAt W H g (x - 1) (y - 1) →
      ¬ freeAt W H g (x + 1) (y - 1) →
      stepCell W H coin g x y = g) := by
  refine ⟨fun hd => ?_, fun hd hl hr => ?_, fun hd hl hr => ?_,
    fun hd hl hr => ?_, fun hd hl hr => ?_⟩
  · unfold stepCell
    rw [if_pos hsand, if_pos hd]
  · unfold stepCell
    rw [if_pos hsand, if_neg hd, if_pos ⟨hl, hr⟩]
  · unfold stepCell
    rw [if_pos hsand, if_neg hd, if_neg (fun hc => hr hc.2), if_pos hl]
  · unfold stepCell
    rw [if_pos hsand, if_neg hd, if_neg (fun hc => hl hc.1), if_neg hl, if_pos hr]
  · unfold stepCell
    rw [if_pos hsand, if_neg hd, if_neg (fun hc => hl hc.1), if_neg hl, if_neg hr]

/-- Witness for C3 on a 3×3 grid holding one Sand cell at (1, 1). -/
theorem sand_rule_priority_witness :
    getCell 3 3 (fun q => if q = (1, 1) then 1 else 0) 1 1 % 256 = 1 ∧
      ((freeAt 3 3 (fun q => if q = (1, 1) then 1 else 0) 1 (1 - 1) →
        stepCell 3 3 (fun _ => true) (fun q => if q = (1, 1) then 1 else 0) 1 1 =
          setCell 3 3 (setCell 3 3 (fun q => if q = (1, 1) then 1 else 0) 1 1 0) 1 (1 - 1)
            (getCell 3 3 (fun q => if q = (1, 1) then 1 else 0) 1 1)) ∧
      (¬ freeAt 3 3 (fun q => if q = (1, 1) then 1 else 0) 1 (1 - 1) →
        freeAt 3 3 (fun q => if q = (1, 1) then 1 else 0) (1 - 1) (1 - 1) →
        freeAt 3 3 (fun q => if q = (1, 1) then 1 else 0) (1 + 1) (1 - 1) →
        stepCell 3 3 (fun _ => true) (fun q => if q = (1, 1) then 1 else 0) 1 1 =
          if (fun _ => true) ((1 : ℤ), (1 : ℤ)) then
            setCell 3 3 (setCell 3 3 (fun q => if q = (1, 1) then 1 else 0) 1 1 0) (1 - 1)
              (1 - 1) (getCell 3 3 (fun q => if q = (1, 1) then 1 else 0) 1 1)
          else
            setCell 3 3 (setCell 3 3 (fun q => if q = (1, 1) then 1 else 0) 1 1 0) (1 + 1)
              (1 - 1) (getCell 3 3 (fun q => if q = (1, 1) then 1 else 0) 1 1)) ∧
      (¬ freeAt 3 3 (fun q => if q = (1, 1) then 1 else 0) 1 (1 - 1) →
        freeAt 3 3 (fun q => if q = (1, 1) then 1 else 0) (1 - 1) (1 - 1) →
        ¬ freeAt 3 3 (fun q => if q = (1, 1) then 1 else 0) (1 + 1) (1 - 1) →
        stepCell 3 3 (fun _ => true) (fun q => if q = (1, 1) then 1 else 0) 1 1 =
          setCell 3 3 (setCell 3 3 (fun q => if q = (1, 1) then 1 else 0) 1 1 0) (1 - 1)
            (1 - 1) (getCell 3 3 (fun q => if q = (1, 1) then 1 else 0) 1 1)) ∧
      (¬ freeAt 3 3 (fun q => if q = (1, 1) then 1 else 0) 1 (1 - 1) →
        ¬ freeAt 3 3 (fun q => if q = (1, 1) then 1 else 0) (1 - 1) (1 - 1) →
        freeAt 3 3 (fun q => if q = (1, 1) then 1 else 0) (1 + 1) (1 - 1) →
        stepCell 3 3 (fun _ => true) (fun q => if q = (1, 1) then 1 else 0) 1 1 =
          setCell 3 3 (setCell 3 3 (fun q => if q = (1, 1) then 1 else 0) 1 1 0) (1 + 1)
            (1 - 1) (getCell 3 3 (fun q => if q = (1, 1) then 1 else 0) 1 1)) ∧
      (¬ freeAt 3 3 (fun q => if q = (1, 1) then 1 else 0) 1 (1 - 1) →
        ¬ freeAt 3 3 (fun q => if q = (1, 1) then 1 else 0) (1 - 1) (1 - 1) →
        ¬ freeAt 3 3 (fun q => if q = (1, 1) then 1 else 0) (1 + 1) (1 - 1) →
        stepCell 3 3 (fun _ => true) (fun q => if q = (1, 1) then 1 else 0) 1 1 =
          (fun q => if q = (1, 1) then 1 else 0))) :=
  ⟨by decide,
   sand_rule_priority 3 3 (fun _ => true) (fun q => if q = (1, 1) then 1 else 0) 1 1
     (by decide)⟩

/-! ## A lone grain of sand falls straight down one row per pass -/

lemma stepCell_of_not_sand (W H : ℕ) (coin : ℤ × ℤ → Bool) (g : Grid) (x y : ℤ)
    (h : getCell W H g x y % 256 ≠ 1) : stepCell W H coin g x y = g := by
  unfold stepCell
  rw [if_neg h]

/-- Sweeping cells a, …, a+b-1 of a row does nothing when none of them holds
sand after the sweep of the first a cells. -/
lemma sweepRowAux_add (W H : ℕ) (coin : ℤ × ℤ → Bool) (y a : ℕ) (g : Grid) :
    ∀ b : ℕ,
      (∀ i : ℕ, a ≤ i → i < a + b →
        getCell W H (sweepRowAux W H coin y a g) (i : ℤ) (y : ℤ) % 256 ≠ 1) →
      sweepRowAux W H coin y (a + b) g = sweepRowAux W H coin y a g := by
  intro b
  induction b with
  | zero => intro _; rfl
  | succ n ih =>
      intro h
      show stepCell W H coin (sweepRowAux W H coin y (a + n) g) ((a + n : ℕ) : ℤ) (y : ℤ)
        = sweepRowAux W H coin y a g
      rw [ih fun i h1 h2 => h i h1 (by omega)]
      exact stepCell_of_not_sand W H coin _ _ _ (h (a + n) (by omega) (by omega))

/-- Sweeping a row that holds no sand does nothing. -/
lemma sweepRowAux_noop (W H : ℕ) (coin : ℤ × ℤ → Bool) (y n : ℕ) (g : Grid)
    (h : ∀ i : ℕ, i < n → getCell W H g (i : ℤ) (y : ℤ) % 256 ≠ 1) :
    sweepRowAux W H coin y n g = g := by
  have h0 : sweepRowAux W H coin y 0 g = g := rfl
  have := sweepRowAux_add W H coin y 0 g n (by
    intro i h1 h2
    rw [h0]
    exact h i (by omega))
  rw [Nat.zero_add] at this
  rw [this, h0]

/-- Sweeping rows a, …, a+b-1 does nothing when none of their cells holds sand
after the sweep of the first a rows. -/
lemma sweepGridAux_add (W H : ℕ) (coin : ℤ × ℤ → Bool) (a : ℕ) (g : Grid) :
    ∀ b : ℕ,
      (∀ j i : ℕ, a ≤ j → j < a + b → i < W →
        getCell W H (sweepGridAux W H coin a g) (i : ℤ) (j : ℤ) % 256 ≠ 1) →
      sweepGridAux W H coin (a + b) g = sweepGridAux W H coin a g := by
  intro b
  induction b with
  | zero => intro _; rfl
  | succ n ih =>
      intro h
      show sweepRowAux W H coin (a + n) W (sweepGridAux W H coin (a + n) g)
        = sweepGridAux W H coin a g
      rw [ih fun j i h1 h2 h3 => h j i h1 (by omega) h3]
      exact sweepRowAux_noop W H coin (a + n) W _ fun i hi => h (a + n) i (by omega) (by omega) hi

/-- One pass over a grid that is Empty except for a single grain of sand at
(px, py), with a free cell below, moves that grain exactly one row down. -/
lemma pass_single_sand (W H : ℕ) (coin : ℤ × ℤ → Bool) (g : Grid) (px py : ℕ)
    (hpx : px < W) (hpy : py < H) (hpy1 : 1 ≤ py)
    (hs : g (px, py) % 256 = 1)
    (he : ∀ a b : ℕ, a < W → b < H → (a, b) ≠ (px, py) → g (a, b) % 256 = 0) :
    passOnce W H coin g =
      Function.update (Function.update g (px, py) 0) (px, py - 1) (g (px, py)) := by
  have hinp : inB W H (px : ℤ) (py : ℤ) := by unfold inB; omega
  have hint : inB W H (px : ℤ) ((py : ℤ) - 1) := by unfold inB; omega
  have htnat : ((py : ℤ) - 1).toNat = py - 1 := by omega
  -- rows below py hold no sand
  have hgA : sweepGridAux W H coin py g = g := by
    have h0 : sweepGridAux W H coin 0 g = g := rfl
    have hcond : ∀ j i : ℕ, 0 ≤ j → j < 0 + py → i < W →
        getCell W H (sweepGridAux W H coin 0 g) (i : ℤ) (j : ℤ) % 256 ≠ 1 := by
      intro j i _ hj hi
      rw [h0]
      have hinb : inB W H (i : ℤ) (j : ℤ) := by unfold inB; omega
      rw [getCell_pos g hinb,
        show (((i : ℤ)).toNat, ((j : ℤ)).toNat) = (i, j) from rfl,
        he i j hi (by omega) (pair_ne (Or.inr (by omega)))]
      omega
    have := sweepGridAux_add W H coin 0 g py hcond
    rw [Nat.zero_add] at this
    rw [this, h0]
  -- cells left of px in row py hold no sand
  have hrow_pre : sweepRowAux W H coin py px g = g := by
    refine sweepRowAux_noop W H coin py px g fun i hi => ?_
    have hinb : inB W H (i : ℤ) (py : ℤ) := by unfold inB; omega
    rw [getCell_pos g hinb,
      show (((i : ℤ)).toNat, ((py : ℤ)).toNat) = (i, py) from rfl,
      he i py (by omega) hpy (pair_ne (Or.inl (by omega)))]
    omega
  -- processing (px, py) commits the straight-down move
  have hstep : sweepRowAux W H coin py (px + 1) g =
      Function.update (Function.update g (px, py) 0) (px, py - 1) (g (px, py)) := by
    show stepCell W H coin (sweepRowAux W H coin py px g) ((px : ℕ) : ℤ) ((py : ℕ) : ℤ) = _
    rw [hrow_pre]
    have hcell : getCell W H g (px : ℤ) (py : ℤ) = g (px, py) := by
      rw [getCell_pos g hinp]
      rfl
    have hsand : getCell W H g (px : ℤ) (py : ℤ) % 256 = 1 := by rw [hcell]; exact hs
    have htcell : getCell W H g (px : ℤ) ((py : ℤ) - 1) = g (px, py - 1) := by
      rw [getCell_pos g hint,
        show (((px : ℤ)).toNat, ((py : ℤ) - 1).toNat) = (px, py - 1) from by rw [htnat]; rfl]
    have hfree : freeAt W H g (px : ℤ) ((py : ℤ) - 1) := by
      refine ⟨hint, ?_⟩
      rw [htcell]
      exact he px (py - 1) hpx (by omega) (pair_ne (Or.inr (by omega)))
    unfold stepCell
    rw [if_pos hsand, if_pos hfree, setCell_pos g 0 hinp, setCell_pos _ _ hint, hcell,
      show (((px : ℤ)).toNat, ((py : ℤ)).toNat) = (px, py) from rfl,
      show (((px : ℤ)).toNat, ((py : ℤ) - 1).toNat) = (px, py - 1) from by rw [htnat]; rfl]
  -- cells right of px in row py hold no sand afterwards
  have hrow : sweepRowAux W H coin py W g =
      Function.update (Function.update g (px, py) 0) (px, py - 1) (g (px, py)) := by
    have hcond : ∀ i : ℕ, px + 1 ≤ i → i < (px + 1) + (W - (px + 1)) →
        getCell W H (sweepRowAux W H coin py (px + 1) g) (i : ℤ) (py : ℤ) % 256 ≠ 1 := by
      intro i h1 h2
      rw [hstep]
      have hinb : inB W H (i : ℤ) (py : ℤ) := by unfold inB; omega
      rw [getCell_pos _ hinb,
        show (((i : ℤ)).toNat, ((py : ℤ)).toNat) = (i, py) from rfl,
        Function.update_noteq (pair_ne (Or.inr (by omega))),
        Function.update_noteq (pair_ne (Or.inl (by omega))),
        he i py (by omega) hpy (pair_ne (Or.inl (by omega)))]
      omega
    have := sweepRowAux_add W H coin py (px + 1) g (W - (px + 1)) hcond
    have hWe : (px + 1) + (W - (px + 1)) = W := by omega
    rw [hWe] at this
    rw [this, hstep]
  -- rows above py hold no sand afterwards
  have hgrid1 : sweepGridAux W H coin (py + 1) g =
      Function.update (Function.update g (px, py) 0) (px, py - 1) (g (px, py)) := by
    show sweepRowAux W H coin py W (sweepGridAux W H coin py g) = _
    rw [hgA]
    exact hrow
  have hcond2 : ∀ j i : ℕ, py + 1 ≤ j → j < (py + 1) + (H - (py + 1)) → i < W →
      getCell W H (sweepGridAux W H coin (py + 1) g) (i : ℤ) (j : ℤ) % 256 ≠ 1 := by
    intro j i h1 h2 h3
    rw [hgrid1]
    have hinb : inB W H (i : ℤ) (j : ℤ) := by unfold inB; omega
    rw [getCell_pos _ hinb,
      show (((i : ℤ)).toNat, ((j : ℤ)).toNat) = (i, j) from rfl,
      Function.update_noteq (pair_ne (Or.inr (by omega))),
      Function.update_noteq (pair_ne (Or.inr (by omega))),
      he i j h3 (by omega) (pair_ne (Or.inr (by omega)))]
    omega
  have hfull := sweepGridAux_add W H coin (py + 1) g (H - (py + 1)) hcond2
  have hHe : (py + 1) + (H - (py + 1)) = H := by omega
  rw [hHe] at hfull
  unfold passOnce
  rw [hfull, hgrid1]

/-! ## The sandfall scenario of the repository's test -/

lemma int_sq_ge_one (a : ℤ) (h : a ≠ 0) : (1 : ℚ) ≤ (a : ℚ) ^ 2 := by
  have h1 : (1 : ℤ) ≤ a ^ 2 := by
    rcases lt_or_gt_of_ne h with hl | hg
    · nlinarith
    · nlinarith
  have h2 : ((1 : ℤ) : ℚ) ≤ ((a ^ 2 : ℤ) : ℚ) := Int.cast_le.mpr h1
  push_cast at h2
  exact h2

/-- The discrete disk of radius 1/2 around (10, 10) contains exactly that
cell. -/
lemma disk_half_singleton (a b : ℕ) :
    (∃ pt ∈ [((10 : ℤ), (10 : ℤ))],
        ((a : ℚ) - (pt.1 : ℚ)) ^ 2 + ((b : ℚ) - (pt.2 : ℚ)) ^ 2 ≤ (1 / 2 : ℚ) ^ 2)
      ↔ a = 10 ∧ b = 10 := by
  constructor
  · intro h
    obtain ⟨pt, hpt, hle⟩ := h
    rw [List.mem_singleton] at hpt
    subst hpt
    norm_num at hle
    have hsq1 : (0 : ℚ) ≤ ((a : ℚ) - 10) ^ 2 := sq_nonneg _
    have hsq2 : (0 : ℚ) ≤ ((b : ℚ) - 10) ^ 2 := sq_nonneg _
    constructor
    · by_contra ha
      have hz : ((a : ℤ) - 10) ≠ 0 := by omega
      have h1 := int_sq_ge_one _ hz
      push_cast at h1
      linarith
    · by_contra hb
      have hz : ((b : ℤ) - 10) ≠ 0 := by omega
      have h1 := int_sq_ge_one _ hz
      push_cast at h1
      linarith
  · rintro ⟨rfl, rfl⟩
    refine ⟨((10 : ℤ), (10 : ℤ)), List.mem_singleton.mpr rfl, ?_⟩
    norm_num

/-- A buffer holding one cell value at (10, 10) and Empty everywhere else. -/
def singleSandGrid (v : ℕ) : Grid := fun q => if q = (10, 10) then v else 0

lemma singleSandGrid_center (v : ℕ) : singleSandGrid v (10, 10) = v := if_pos rfl

lemma singleSandGrid_other (v a b : ℕ) (h : ((a : ℕ), (b : ℕ)) ≠ ((10 : ℕ), (10 : ℕ))) :
    singleSandGrid v (a, b) = 0 := if_neg h

/-- Painting Sand with brush radius 1/2 at (10, 10) on a fresh 1024×1024
simulator writes exactly one freshly constructed sand cell. -/
lemma draw_single_sand_grid (rand : ℕ × ℕ → ℚ) :
    ((CaSimulator.new 1024 1024).draw_matter [((10 : ℤ), (10 : ℤ))] (1 / 2)
        MatterId.Sand rand).grid
      = singleSandGrid (MatterWithColor.new MatterId.Sand (rand (10, 10))).value := by
  funext q
  obtain ⟨a, b⟩ := q
  unfold CaSimulator.draw_matter CaSimulator.new singleSandGrid
  dsimp only
  by_cases hq : ((a : ℕ), (b : ℕ)) = ((10 : ℕ), (10 : ℕ))
  · rw [Prod.mk.injEq] at hq
    obtain ⟨ha, hb⟩ := hq
    subst ha
    subst hb
    rw [if_pos ⟨by norm_num, by norm_num, (disk_half_singleton 10 10).mpr ⟨rfl, rfl⟩⟩,
      if_pos rfl]
  · rw [if_neg hq, if_neg (fun hc => hq (by
      obtain ⟨h1, h2⟩ := (disk_half_singleton a b).mp hc.2.2
      rw [h1, h2]))]

/-- Evaluation form of the query operator at an in-bounds position. -/
lemma query_matter_pos (sim : CaSimulator) (p : ℤ × ℤ)
    (hin : inB sim.width sim.height p.1 p.2) :
    sim.query_matter p = MatterId.fromByte (sim.grid (p.1.toNat, p.2.toNat) % 256) :=
  if_pos hin

/-- C2: on an otherwise-Empty 1024×1024 grid with Sand painted at (10, 10),
`query_matter` reports Sand there; after one `step(1, false)` the old cell is
Empty and the cell directly below, (10, 9), holds Sand — whatever the injected
random sources do. -/
theorem sandfall_scenario (rand : ℕ × ℕ → ℚ) (coins : ℕ → ℤ × ℤ → Bool) :
    ((CaSimulator.new 1024 1024).draw_matter [((10 : ℤ), (10 : ℤ))] (1 / 2)
        MatterId.Sand rand).query_matter (10, 10) = some MatterId.Sand ∧
    (((CaSimulator.new 1024 1024).draw_matter [((10 : ℤ), (10 : ℤ))] (1 / 2)
        MatterId.Sand rand).step 1 false coins).query_matter (10, 10)
      = some MatterId.Empty ∧
    (((CaSimulator.new 1024 1024).draw_matter [((10 : ℤ), (10 : ℤ))] (1 / 2)
        MatterId.Sand rand).step 1 false coins).query_matter (10, 9)
      = some MatterId.Sand := by
  have hg := draw_single_sand_grid rand
  have hbyte : (MatterWithColor.new MatterId.Sand (rand (10, 10))).value % 256 = 1 := by
    rw [new_value_mod]
    rfl
  have hs : singleSandGrid (MatterWithColor.new MatterId.Sand (rand (10, 10))).value
      (10, 10) % 256 = 1 := by
    rw [singleSandGrid_center]
    exact hbyte
  have he : ∀ a b : ℕ, a < 1024 → b < 1024 → ((a : ℕ), (b : ℕ)) ≠ ((10 : ℕ), (10 : ℕ)) →
      singleSandGrid (MatterWithColor.new MatterId.Sand (rand (10, 10))).value
        (a, b) % 256 = 0 := by
    intro a b _ _ hne
    rw [singleSandGrid_other _ _ _ hne]
  have hstep_g : (((CaSimulator.new 1024 1024).draw_matter [((10 : ℤ), (10 : ℤ))] (1 / 2)
        MatterId.Sand rand).step 1 false coins).grid
      = Function.update (Function.update
          (singleSandGrid (MatterWithColor.new MatterId.Sand (rand (10, 10))).value)
          (10, 10) 0) (10, 10 - 1)
          (singleSandGrid (MatterWithColor.new MatterId.Sand (rand (10, 10))).value
            (10, 10)) := by
    have h1 : (((CaSimulator.new 1024 1024).draw_matter [((10 : ℤ), (10 : ℤ))] (1 / 2)
          MatterId.Sand rand).step 1 false coins).grid
        = runPasses 1024 1024 coins 1
            ((CaSimulator.new 1024 1024).draw_matter [((10 : ℤ), (10 : ℤ))] (1 / 2)
              MatterId.Sand rand).grid := by
      unfold CaSimulator.step
      rw [if_neg (by simp)]
      dsimp only
      rw [show ((CaSimulator.new 1024 1024).draw_matter [((10 : ℤ), (10 : ℤ))] (1 / 2)
            MatterId.Sand rand).width = 1024 from rfl,
        show ((CaSimulator.new 1024 1024).draw_matter [((10 : ℤ), (10 : ℤ))] (1 / 2)
            MatterId.Sand rand).height = 1024 from rfl]
    rw [h1, hg]
    show passOnce 1024 1024 (coins 0)
        (singleSandGrid (MatterWithColor.new MatterId.Sand (rand (10, 10))).value) = _
    exact pass_single_sand 1024 1024 (coins 0) _ 10 10 (by norm_num) (by norm_num)
      (by norm_num) hs he
  refine ⟨?_, ?_, ?_⟩
  · have hin1 : inB 1024 1024 10 10 := by decide
    have hq := query_matter_pos
      ((CaSimulator.new 1024 1024).draw_matter [((10 : ℤ), (10 : ℤ))] (1 / 2)
        MatterId.Sand rand) ((10 : ℤ), (10 : ℤ)) hin1
    rw [hq, hg]
    show MatterId.fromByte
      (singleSandGrid (MatterWithColor.new MatterId.Sand (rand (10, 10))).value
        (10, 10) % 256) = some MatterId.Sand
    rw [singleSandGrid_center, hbyte]
    rfl
  · have hin1 : inB 1024 1024 10 10 := by decide
    have hq := query_matter_pos
      (((CaSimulator.new 1024 1024).draw_matter [((10 : ℤ), (10 : ℤ))] (1 / 2)
        MatterId.Sand rand).step 1 false coins) ((10 : ℤ), (10 : ℤ)) hin1
    rw [hq, hstep_g]
    show MatterId.fromByte
      (Function.update (Function.update
          (singleSandGrid (MatterWithColor.new MatterId.Sand (rand (10, 10))).value)
          (10, 10) 0) (10, 10 - 1)
          (singleSandGrid (MatterWithColor.new MatterId.Sand (rand (10, 10))).value
            (10, 10)) (10, 10) % 256) = some MatterId.Empty
    rw [Function.update_noteq (by decide), Function.update_same]
    rfl
  · have hin1 : inB 1024 1024 10 9 := by decide
    have hq := query_matter_pos
      (((CaSimulator.new 1024 1024).draw_matter [((10 : ℤ), (10 : ℤ))] (1 / 2)
        MatterId.Sand rand).step 1 false coins) ((10 : ℤ), (9 : ℤ)) hin1
    rw [hq, hstep_g]
    show MatterId.fromByte
      (Function.update (Function.update
          (singleSandGrid (MatterWithColor.new MatterId.Sand (rand (10, 10))).value)
          (10, 10) 0) (10, 10 - 1)
          (singleSandGrid (MatterWithColor.new MatterId.Sand (rand (10, 10))).value
            (10, 10)) (10, 9) % 256) = some MatterId.Sand
    rw [show ((10 : ℕ), (9 : ℕ)) = ((10 : ℕ), 10 - 1) from rfl, Function.update_same,
      singleSandGrid_center, hbyte]
    rfl

/-! ## Color variation: one shared offset, not independent ones -/

/-- Inverting `chanByte` on an interior byte value pins the unclamped channel
value to a half-open unit interval. -/
lemma chanByte_eq_imp (x : ℚ) (n : ℕ) (hn1 : 1 ≤ n) (hn2 : n ≤ 254)
    (h : chanByte x = n) : (n : ℚ) ≤ x * 255 ∧ x * 255 < (n : ℚ) + 1 := by
  unfold chanByte at h
  have hc0 : (0 : ℚ) ≤ clamp01 x := le_min (le_max_right x 0) (by norm_num)
  have h255 : (0 : ℚ) ≤ clamp01 x * 255 := mul_nonneg hc0 (by norm_num)
  have hfl0 : 0 ≤ ⌊clamp01 x * 255⌋ := Int.floor_nonneg.mpr h255
  have hfl : ⌊clamp01 x * 255⌋ = (n : ℤ) := by omega
  rw [Int.floor_eq_iff] at hfl
  obtain ⟨hl, hr⟩ := hfl
  push_cast at hl hr
  have hn2q : (n : ℚ) ≤ 254 := by exact_mod_cast hn2
  have hn1q : (1 : ℚ) ≤ (n : ℚ) := by exact_mod_cast hn1
  have hclt : clamp01 x < 1 := by linarith
  have hcgt : 0 < clamp01 x := by linarith
  have hx0 : 0 ≤ x := by
    by_contra hneg
    push_neg at hneg
    have hz : clamp01 x = 0 := by
      unfold clamp01
      rw [max_eq_right (le_of_lt hneg)]
      exact min_eq_left (by norm_num)
    rw [hz] at hcgt
    exact lt_irrefl _ hcgt
  have hx1 : x < 1 := by
    by_contra hge
    push_neg at hge
    have hz : clamp01 x = 1 := by
      unfold clamp01
      rw [max_eq_left (le_trans zero_le_one hge)]
      exact min_eq_right hge
    rw [hz] at hclt
    exact lt_irrefl _ hclt
  have hcl : clamp01 x = x := by
    unfold clamp01
    rw [max_eq_left hx0]
    exact min_eq_left (le_of_lt hx1)
  rw [hcl] at hl hr
  exact ⟨hl, hr⟩

/-- The color-variation procedure as the spec's sentence for this claim reads:
each of R, G and B perturbed by its own independently drawn offset from the
same symmetric range.  Stated for comparison against the source's
`gen_variate_color_rgba_u8`, which draws a single offset. -/
def gen_variate_color_indep (m : MatterId) (p1 p2 p3 : ℚ) : ℕ × ℕ × ℕ × ℕ :=
  let color := m.color_rgba_f32
  (chanByte (color.1 + (-(1 / 10) + (1 / 5) * p1)),
    chanByte (color.2.1 + (-(1 / 10) + (1 / 5) * p2)),
    chanByte (color.2.2.1 + (-(1 / 10) + (1 / 5) * p3)), 255)

/-- Evaluation form of `chanByte` when no clamping occurs. -/
lemma chanByte_eval (x : ℚ) (hx0 : 0 ≤ x) (hx1 : x ≤ 1) :
    chanByte x = (⌊x * 255⌋).toNat := by
  unfold chanByte clamp01
  rw [max_eq_left hx0, min_eq_left hx1]

/-- The base color of Sand, channel-wise, as exact rationals. -/
lemma sand_color_f32 :
    MatterId.color_rgba_f32 MatterId.Sand = (194 / 255, 178 / 255, 128 / 255, 1) := by
  unfold MatterId.color_rgba_f32 MatterId.color_rgba_u8 u32_rgba_to_u8_rgba
  norm_num

/-- C9 counterexample: with independent per-channel offsets, the draws
(1, 0, 0) for Sand yield the color (219, 152, 102); the source's variation
procedure, which adds one shared random offset to all three channels, can
produce that color for no random draw whatsoever — so the claim that the
channels are perturbed by independent offsets fails on the code. -/
theorem gen_variate_not_independent :
    ¬ ∃ p : ℚ, MatterId.gen_variate_color_rgba_u8 MatterId.Sand p
        = gen_variate_color_indep MatterId.Sand 1 0 0 := by
  rintro ⟨p, hp⟩
  have hR : gen_variate_color_indep MatterId.Sand 1 0 0 = (219, 152, 102, 255) := by
    unfold gen_variate_color_indep
    rw [sand_color_f32]
    dsimp only
    rw [show (194 / 255 + (-(1 / 10) + 1 / 5 * 1) : ℚ) = 439 / 510 from by norm_num,
      show (178 / 255 + (-(1 / 10) + 1 / 5 * 0) : ℚ) = 61 / 102 from by norm_num,
      show (128 / 255 + (-(1 / 10) + 1 / 5 * 0) : ℚ) = 41 / 102 from by norm_num,
      chanByte_eval _ (by norm_num) (by norm_num),
      chanByte_eval _ (by norm_num) (by norm_num),
      chanByte_eval _ (by norm_num) (by norm_num),
      show ((439 : ℚ) / 510 * 255) = 439 / 2 from by norm_num,
      show ((61 : ℚ) / 102 * 255) = 305 / 2 from by norm_num,
      show ((41 : ℚ) / 102 * 255) = 205 / 2 from by norm_num,
      show ⌊(439 / 2 : ℚ)⌋ = 219 from by rw [Int.floor_eq_iff] <;> norm_num,
      show ⌊(305 / 2 : ℚ)⌋ = 152 from by rw [Int.floor_eq_iff] <;> norm_num,
      show ⌊(205 / 2 : ℚ)⌋ = 102 from by rw [Int.floor_eq_iff] <;> norm_num]
    rfl
  rw [hR] at hp
  obtain ⟨h1, h2, _⟩ :
      chanByte (194 / 255 + (-(1 / 10) + (1 / 5) * p)) = 219 ∧
        chanByte (178 / 255 + (-(1 / 10) + (1 / 5) * p)) = 152 ∧
          chanByte (128 / 255 + (-(1 / 10) + (1 / 5) * p)) = 102 := by
    have h := hp
    unfold MatterId.gen_variate_color_rgba_u8 at h
    rw [sand_color_f32] at h
    simpa [Prod.mk.injEq] using h
  have hb1 := chanByte_eq_imp _ 219 (by norm_num) (by norm_num) h1
  have hb2 := chanByte_eq_imp _ 152 (by norm_num) (by norm_num) h2
  have e1 := hb1.1
  have e2 := hb2.2
  nlinarith [e1, e2]

/-- C9 amended: for every non-Empty kind, the construction draws one random
offset from the symmetric range [-1/10, 1/10) — about ±10% of full scale — and
applies that same shared offset to all three channels, clamping each to the
valid range; for Empty, construction returns the fixed unperturbed background
color. -/
theorem gen_variate_shared_offset (k : MatterId) (p : ℚ) (hk : k ≠ MatterId.Empty)
    (h0 : 0 ≤ p) (h1 : p < 1) :
    (∃ v : ℚ, -(1 / 10) ≤ v ∧ v < 1 / 10 ∧
      k.gen_variate_color_rgba_u8 p =
        (chanByte (k.color_rgba_f32.1 + v), chanByte (k.color_rgba_f32.2.1 + v),
          chanByte (k.color_rgba_f32.2.2.1 + v), 255)) ∧
    (MatterWithColor.new MatterId.Empty p).value = u8_rgba_to_u32_rgba 0 0 0 0 := by
  refine ⟨⟨-(1 / 10) + (1 / 5) * p, by linarith, by linarith, rfl⟩, rfl⟩

/-- Witness for C9's amended claim at kind Sand and draw 1/2. -/
theorem gen_variate_shared_offset_witness :
    MatterId.Sand ≠ MatterId.Empty ∧ (0 : ℚ) ≤ 1 / 2 ∧ (1 / 2 : ℚ) < 1 ∧
      ((∃ v : ℚ, -(1 / 10) ≤ v ∧ v < 1 / 10 ∧
        MatterId.Sand.gen_variate_color_rgba_u8 (1 / 2) =
          (chanByte (MatterId.Sand.color_rgba_f32.1 + v),
            chanByte (MatterId.Sand.color_rgba_f32.2.1 + v),
            chanByte (MatterId.Sand.color_rgba_f32.2.2.1 + v), 255)) ∧
      (MatterWithColor.new MatterId.Empty (1 / 2)).value = u8_rgba_to_u32_rgba 0 0 0 0) :=
  ⟨by decide, by norm_num, by norm_num,
   gen_variate_shared_offset MatterId.Sand (1 / 2) (by decide) (by norm_num) (by norm_num)⟩
